import Mathlib

/-!
Shallow embedding of the FAOSTAT ingestion pipeline
(`src/import_faostat.py` of `hwam91/open-ag-library`).

The pure string manipulation (`os.path.basename`, `str.replace`,
`in` / `endswith` tests) is embedded directly over `List Char`.
Database effects (psycopg2 inserts with per-dimension commit/rollback,
pandas `to_sql` appends) are embedded as explicit state passing over a
`DBState` record; a possible exception at a dimension row is injected
through a `RowEvent` value, and exceptions that escape a function are
an `Except.error` result.
-/

namespace OpenAgLibrary

/-- Python substring test over character lists: `charListIn sub l` is
`True` exactly when `sub` occurs contiguously inside `l` (the empty
pattern occurs in every string, as in Python). -/
def charListIn (sub : List Char) : List Char → Bool
  | [] => sub.isEmpty
  | c :: t => sub.isPrefixOf (c :: t) || charListIn sub t

/-- Python `sub in s` for strings. -/
def pyIn (sub s : String) : Bool :=
  charListIn sub.toList s.toList

/-- Python `s.endswith(post)`. -/
def pyEndsWith (s post : String) : Bool :=
  List.isPrefixOf post.toList.reverse s.toList.reverse

/-- Python `os.path.basename`: the part of the path after the last slash. -/
def pyBasename (s : String) : String :=
  String.mk ((s.toList.reverse.takeWhile (fun c => c ≠ '/')).reverse)

/-- Worker for Python `str.replace`: replaces every occurrence of `pat`
(non-empty, left to right, non-overlapping) by `rep`.  The `fuel`
argument makes the recursion structural; it is always called with
`fuel = l.length` and each step consumes at least one character, so the
fuel never runs out before the input does. -/
def replaceFuel (pat rep : List Char) : Nat → List Char → List Char
  | _, [] => []
  | 0, l => l
  | fuel + 1, c :: t =>
    if pat.isPrefixOf (c :: t) ∧ ¬ pat.isEmpty then
      rep ++ replaceFuel pat rep fuel (t.drop (pat.length - 1))
    else
      c :: replaceFuel pat rep fuel t

/-- Python `s.replace(pat, rep)` (for a non-empty `pat`). -/
def pyReplace (s pat rep : String) : String :=
  String.mk (replaceFuel pat.toList rep.toList s.toList.length s.toList)

/-- One dataset descriptor from the metadata document `datasets_E.json`
(`data['Datasets']['Dataset']`).  Only the fields the importer reads are
kept: `DatasetCode` is required (the code indexes `ds['DatasetCode']`),
`FileLocation` is optional (the code reads `ds.get('FileLocation', '')`).
The remaining descriptive fields are passed through verbatim by the
importer and are irrelevant to its control flow. -/
structure DatasetDescriptor where
  datasetCode : String
  fileLocation : Option String
deriving DecidableEq

/-- The stripped stem of an archive path, as computed at the top of
`get_dataset_code_from_filename`:
`os.path.basename(...)` then `.replace('_E_All_Data_(Normalized).zip', '')`. -/
def stripArchiveStem (zip_filename : String) : String :=
  pyReplace (pyBasename zip_filename) "_E_All_Data_(Normalized).zip" ""

/-- The per-descriptor test of `get_dataset_code_from_filename`:
`base_name in file_location or file_location.endswith(f'{base_name}.zip')`
with `file_location = ds.get('FileLocation', '')`. -/
def descriptorMatches (base_name : String) (ds : DatasetDescriptor) : Bool :=
  let file_location := ds.fileLocation.getD ""
  pyIn base_name file_location || pyEndsWith file_location (base_name ++ ".zip")

/-- Embeds `get_dataset_code_from_filename(zip_filename, datasets_metadata)`:
first descriptor (in document order) whose file location matches the
stripped stem wins; with no match, fall back to the first 10 characters
of the stem (`base_name[:10]`). -/
def get_dataset_code_from_filename (zip_filename : String)
    (datasets_metadata : List DatasetDescriptor) : String :=
  let base_name := stripArchiveStem zip_filename
  match datasets_metadata.find? (descriptorMatches base_name) with
  | some ds => ds.datasetCode
  | none => base_name.take 10

/-- A row of the `areas` dimension table (and of an `AreaCodes.csv` file
after the positional rename to `['area_code', 'm49_code', 'area_name']`). -/
structure AreaRow where
  area_code : Int
  m49_code : String
  area_name : String
deriving DecidableEq

/-- A row of an `ItemCodes.csv` file after the positional rename
(the dataset code is attached by the loader, not read from the file). -/
structure ItemCsvRow where
  item_code : Int
  cpc_code : String
  item_name : String
deriving DecidableEq

/-- A row of the `items` dimension table. -/
structure ItemRow where
  item_code : Int
  cpc_code : String
  item_name : String
  dataset_code : String
deriving DecidableEq

/-- A row of an `Elements.csv` file after the positional rename. -/
structure ElementCsvRow where
  element_code : Int
  element_name : String
deriving DecidableEq

/-- A row of the `elements` dimension table. -/
structure ElementRow where
  element_code : Int
  element_name : String
  dataset_code : String
deriving DecidableEq

/-- A row of the `flags` dimension table (and of a `Flags.csv` file after
the positional rename to `['flag_code', 'flag_description']`). -/
structure FlagRow where
  flag_code : String
  flag_description : String
deriving DecidableEq

/-- A raw row of the main fact CSV (`..._All_Data_(Normalized).csv`) as the
fact loader consumes it.  Columns that the loader reads through
`chunk.get(col, default)` — i.e. that may be absent from the file — are
`Option`-valued; `Value` is kept as its raw textual token, since the loader
coerces it itself with `pd.to_numeric(..., errors='coerce')`. -/
structure FactCsvRow where
  areaCode : Int
  itemCode : Int
  elementCode : Int
  year : Int
  yearCode : Option Int
  monthsCode : Option Int
  months : Option String
  value : String
  unit : Option String
  flag : Option String
  note : Option String
deriving DecidableEq

/-- A row of the `faostat_data` fact table, the shape of `chunk_clean`. -/
structure FactRow where
  dataset_code : String
  area_code : Int
  item_code : Int
  element_code : Int
  year : Int
  year_code : Int
  month_code : Option Int
  month_name : Option String
  value : Option ℚ
  unit : String
  flag : String
  note : String
deriving DecidableEq

/-- The state of the target database: the five dimension/metadata tables
and the fact table, each a list of rows in insertion order. -/
structure DBState where
  datasets : List DatasetDescriptor
  areas : List AreaRow
  items : List ItemRow
  elements : List ElementRow
  flags : List FlagRow
  faostat_data : List FactRow
deriving DecidableEq

/-- Semantics of `INSERT ... ON CONFLICT (key) DO NOTHING`: if a row with the same
natural key is already present the table is left untouched, otherwise the
row is appended. -/
def insertOnConflictDoNothing {ρ κ : Type} [BEq κ] (key : ρ → κ)
    (table : List ρ) (r : ρ) : List ρ :=
  if table.any (fun x => key x == key r) then table else table ++ [r]

/-- What happens at one dimension row inside the per-dimension `try` block:
either the row is read and its `INSERT` succeeds (`ok row`), or an
exception (bad cell, connectivity error, ...) is raised at that row
(`err`). -/
inductive RowEvent (ρ : Type) where
  | ok (row : ρ)
  | err
deriving DecidableEq

/-- Run one dimension's row loop against the open transaction: inserts
accumulate on top of `table`; the first `err` aborts the loop with an
exception (`none`). -/
def runDimEvents {ρ κ : Type} [BEq κ] (key : ρ → κ) (table : List ρ) :
    List (RowEvent ρ) → Option (List ρ)
  | [] => some table
  | RowEvent.err :: _ => none
  | RowEvent.ok r :: rest => runDimEvents key (insertOnConflictDoNothing key table r) rest

/-- One `try: <row loop>; conn.commit() except: conn.rollback()` block:
on success the accumulated inserts are committed; on an exception the
rollback restores the table exactly as it stood when the block began
(everything earlier was already committed by previous blocks). -/
def dimBlock {ρ κ : Type} [BEq κ] (key : ρ → κ) (table : List ρ)
    (events : List (RowEvent ρ)) : List ρ :=
  match runDimEvents key table events with
  | some t => t
  | none => table

/-- Apply a function to the payload of a successful row event. -/
def mapEvent {ρ ρ' : Type} (f : ρ → ρ') : RowEvent ρ → RowEvent ρ'
  | RowEvent.ok r => RowEvent.ok (f r)
  | RowEvent.err => RowEvent.err

/-- Embeds `df_items['dataset_code'] = dataset_code`: attach the resolved code. -/
def itemWithCode (dataset_code : String) (r : ItemCsvRow) : ItemRow :=
  ⟨r.item_code, r.cpc_code, r.item_name, dataset_code⟩

/-- Embeds `df_elements['dataset_code'] = dataset_code`: attach the resolved code. -/
def elementWithCode (dataset_code : String) (r : ElementCsvRow) : ElementRow :=
  ⟨r.element_code, r.element_name, dataset_code⟩

/-- The "Loading area codes..." block of `process_zip_file`. -/
def loadAreasBlock (db : DBState) (events : List (RowEvent AreaRow)) : DBState :=
  { db with areas := dimBlock AreaRow.area_code db.areas events }

/-- The "Loading item codes..." block of `process_zip_file`. -/
def loadItemsBlock (dataset_code : String) (db : DBState)
    (events : List (RowEvent ItemCsvRow)) : DBState :=
  { db with items := (dimBlock ItemRow.item_code db.items
      (events.map (mapEvent (itemWithCode dataset_code)))) }

/-- The "Loading element codes..." block of `process_zip_file`. -/
def loadElementsBlock (dataset_code : String) (db : DBState)
    (events : List (RowEvent ElementCsvRow)) : DBState :=
  { db with elements := (dimBlock ElementRow.element_code db.elements
      (events.map (mapEvent (elementWithCode dataset_code)))) }

/-- The "Loading flags..." block of `process_zip_file`. -/
def loadFlagsBlock (db : DBState) (events : List (RowEvent FlagRow)) : DBState :=
  { db with flags := dimBlock FlagRow.flag_code db.flags events }

/-- Value of a decimal digit string. -/
def digitsToNat (ds : List Char) : Nat :=
  ds.foldl (fun n c => n * 10 + (c.toNat - 48)) 0

/-- Embeds `pd.to_numeric(column, errors='coerce')` applied to one raw token:
a well-formed (optionally signed) decimal literal becomes its rational
value, anything else becomes an absent value (`NaN` in pandas, `NULL`
once written to the database) — never an exception, never the raw text.
Modelled for plain decimal literals `[+-]?digits[.digits]?`. -/
def to_numeric_coerce (s : String) : Option ℚ :=
  let signed : Bool × List Char :=
    match s.toList with
    | '-' :: t => (true, t)
    | '+' :: t => (false, t)
    | t => (false, t)
  let intDigits := signed.2.takeWhile Char.isDigit
  let rest := signed.2.dropWhile Char.isDigit
  let mag : Option ℚ :=
    match rest with
    | [] => if intDigits.isEmpty then none else some (digitsToNat intDigits : ℚ)
    | '.' :: t =>
      let fracDigits := t.takeWhile Char.isDigit
      let rest2 := t.dropWhile Char.isDigit
      if rest2.isEmpty ∧ ¬ (intDigits.isEmpty ∧ fracDigits.isEmpty) then
        some ((digitsToNat intDigits : ℚ)
          + (digitsToNat fracDigits : ℚ) / (10 : ℚ) ^ fracDigits.length)
      else none
    | _ => none
  match mag with
  | none => none
  | some m => some (if signed.1 then -m else m)

/-- The per-row content of the `chunk_clean` projection inside the fact
loop of `process_zip_file`: attach the dataset code, copy the required
columns, default `year_code` to `Year`, keep the month columns absent
when missing, coerce `Value`, and default `unit`/`flag`/`note` to the
empty string. -/
def mapFactRow (dataset_code : String) (r : FactCsvRow) : FactRow where
  dataset_code := dataset_code
  area_code := r.areaCode
  item_code := r.itemCode
  element_code := r.elementCode
  year := r.year
  year_code := r.yearCode.getD r.year
  month_code := r.monthsCode
  month_name := r.months
  value := to_numeric_coerce r.value
  unit := r.unit.getD ""
  flag := r.flag.getD ""
  note := r.note.getD ""

/-- The constant `chunk_size = 10000`, the row-batch size of the fact loader. -/
def chunk_size : Nat := 10000

/-- Worker for chunking a list into batches of `n` rows (the final batch
may be shorter), as `pd.read_csv(..., chunksize=n)` yields them.  The
`fuel` argument makes the recursion structural; each step consumes at
least one element, so with `fuel = l.length` it never runs out. -/
def chunksOfFuel (n : Nat) : Nat → List α → List (List α)
  | _, [] => []
  | 0, l => [l]
  | fuel + 1, a :: t => (a :: t.take (n - 1)) :: chunksOfFuel n fuel (t.drop (n - 1))

/-- Split a list into consecutive batches of `n` elements (last one may
be shorter); an empty list yields no batches, as `read_csv` with
`chunksize` yields no chunks for an empty frame. -/
def chunksOf (n : Nat) (l : List α) : List (List α) :=
  chunksOfFuel n l.length l

/-- The sequence of cleaned batches the fact loader passes to
`chunk_clean.to_sql('faostat_data', ..., if_exists='append', ...)`, one
list entry per `to_sql` append call. -/
def factBatches (dataset_code : String) (rows : List FactCsvRow) : List (List FactRow) :=
  (chunksOf chunk_size rows).map (List.map (mapFactRow dataset_code))

/-- The whole fact-loading loop: every batch is appended, in order, to
the existing `faostat_data` table. -/
def loadFacts (dataset_code : String) (rows : List FactCsvRow)
    (table : List FactRow) : List FactRow :=
  (factBatches dataset_code rows).foldl (fun t batch => t ++ batch) table

/-- The archive discovery inside `process_zip_file`:
`[f for f in file_list if pattern in f]`. -/
def findFiles (pattern : String) (file_list : List String) : List String :=
  file_list.filter (fun f => pyIn pattern f)

/-- One zip archive as `process_zip_file` sees it: its path, its inner
file list, the parsed rows of each dimension CSV (with possible
exceptions injected as `RowEvent.err`), and the parsed rows of the main
fact CSV. -/
structure Archive where
  name : String
  fileList : List String
  areaRows : List (RowEvent AreaRow)
  itemRows : List (RowEvent ItemCsvRow)
  elementRows : List (RowEvent ElementCsvRow)
  flagRows : List (RowEvent FlagRow)
  factRows : List FactCsvRow
deriving DecidableEq

/-- Embeds `process_zip_file(zip_path, dataset_code)` over a database state.
Control flow follows the source: selecting the main fact file with
`[...][0]` raises `IndexError` when no inner name contains
`'All_Data_(Normalized).csv'` (before any database work); a missing
dataset code raises `ValueError`; each dimension is loaded only when a
matching inner file exists, inside its own try/commit/rollback block;
finally the fact CSV is appended batch by batch.  An exception escaping
the function is an `Except.error`. -/
def process_zip_file (arch : Archive) (dataset_code : Option String)
    (db : DBState) : Except String DBState :=
  if (findFiles "All_Data_(Normalized).csv" arch.fileList).isEmpty then
    Except.error "list index out of range"
  else
    match dataset_code with
    | none => Except.error "Dataset code must be provided"
    | some code =>
      let db1 := if (findFiles "AreaCodes.csv" arch.fileList).isEmpty then db
        else loadAreasBlock db arch.areaRows
      let db2 := if (findFiles "ItemCodes.csv" arch.fileList).isEmpty then db1
        else loadItemsBlock code db1 arch.itemRows
      let db3 := if (findFiles "Elements.csv" arch.fileList).isEmpty then db2
        else loadElementsBlock code db2 arch.elementRows
      let db4 := if (findFiles "Flags.csv" arch.fileList).isEmpty then db3
        else loadFlagsBlock db3 arch.flagRows
      Except.ok { db4 with faostat_data := loadFacts code arch.factRows db4.faostat_data }

/-- Semantics of `INSERT ... ON CONFLICT (dataset_code) DO UPDATE` for one metadata
record of `insert_datasets_metadata`: a new code is appended, an
existing code's row is overwritten. -/
def upsertDatasetRow (table : List DatasetDescriptor) (d : DatasetDescriptor) :
    List DatasetDescriptor :=
  if table.any (fun x => x.datasetCode == d.datasetCode) then
    table.map (fun x => if x.datasetCode == d.datasetCode then d else x)
  else table ++ [d]

/-- Embeds `insert_datasets_metadata(datasets)`: upsert every descriptor into
the `datasets` table, in document order. -/
def insert_datasets_metadata (datasets : List DatasetDescriptor) (db : DBState) : DBState :=
  { db with datasets := datasets.foldl upsertDatasetRow db.datasets }

/-- Observable state of one run of `main`: the database, the `ERROR`-level
log lines, and the archives passed to `process_zip_file`, in order. -/
structure RunState where
  db : DBState
  errorLogs : List String
  attempts : List String
deriving DecidableEq

/-- One iteration of the archive loop in `main`: resolve the dataset
code, call `process_zip_file`, and on any exception log it and
`continue` with the current database state. -/
def processOneArchive (datasets : List DatasetDescriptor) (st : RunState)
    (arch : Archive) : RunState :=
  let dataset_code := get_dataset_code_from_filename arch.name datasets
  match process_zip_file arch (some dataset_code) st.db with
  | Except.ok db' =>
    { st with db := db', attempts := st.attempts ++ [arch.name] }
  | Except.error e =>
    { st with
      errorLogs := st.errorLogs ++ ["Error processing " ++ arch.name ++ ": " ++ e],
      attempts := st.attempts ++ [arch.name] }

/-- The archive loop of `main`. -/
def mainLoop (datasets : List DatasetDescriptor) (st : RunState) :
    List Archive → RunState
  | [] => st
  | arch :: rest => mainLoop datasets (processOneArchive datasets st arch) rest

/-- The external inputs of one run of `main`: the outcome of
`load_datasets_metadata()` (reading/parsing `datasets_E.json` may raise)
and the archives `find_all_zip_files()` discovers, in traversal order. -/
structure RunInput where
  registry : Except String (List DatasetDescriptor)
  archives : List Archive

/-- Embeds `main()`: load the registry — on any exception log it and `return`
before touching any archive — then upsert the metadata rows and process
every discovered archive once, catching per-archive exceptions. -/
def main (input : RunInput) (db0 : DBState) : RunState :=
  match input.registry with
  | Except.error e =>
    { db := db0, errorLogs := ["Error loading dataset metadata: " ++ e], attempts := [] }
  | Except.ok datasets =>
    mainLoop datasets
      { db := insert_datasets_metadata datasets db0, errorLogs := [], attempts := [] }
      input.archives

/-- Database state after the areas block of `process_zip_file` (the first
dimension load of an archive whose file list has all dimension files). -/
def dimPhase1 (db : DBState) (arch : Archive) : DBState :=
  loadAreasBlock db arch.areaRows

/-- Database state after the items block. -/
def dimPhase2 (code : String) (db : DBState) (arch : Archive) : DBState :=
  loadItemsBlock code (dimPhase1 db arch) arch.itemRows

/-- Database state after the elements block. -/
def dimPhase3 (code : String) (db : DBState) (arch : Archive) : DBState :=
  loadElementsBlock code (dimPhase2 code db arch) arch.elementRows

/-- Database state after the flags block (all four dimension loads done). -/
def dimPhase4 (code : String) (db : DBState) (arch : Archive) : DBState :=
  loadFlagsBlock (dimPhase3 code db arch) arch.flagRows

/-- An empty database, for concrete instantiations. -/
def dbEmpty : DBState := ⟨[], [], [], [], [], []⟩

/-- A concrete raw fact row, for concrete instantiations. -/
def sampleFactCsvRow : FactCsvRow :=
  ⟨2, 15, 5312, 2020, none, none, none, "N/A", some "ha", some "A", none⟩

/-- A concrete archive holding only a main fact CSV with two rows. -/
def archFacts : Archive :=
  ⟨"QCL_E_All_Data_(Normalized).zip", ["QCL_E_All_Data_(Normalized).csv"],
   [], [], [], [], [sampleFactCsvRow, sampleFactCsvRow]⟩

/-- State after `archFacts` is processed once against the empty database. -/
def dbFacts1 : DBState :=
  { dbEmpty with faostat_data :=
      [mapFactRow "QCL" sampleFactCsvRow, mapFactRow "QCL" sampleFactCsvRow] }

/-- State after `archFacts` is processed twice against the empty database. -/
def dbFacts2 : DBState :=
  { dbEmpty with faostat_data :=
      [mapFactRow "QCL" sampleFactCsvRow, mapFactRow "QCL" sampleFactCsvRow,
       mapFactRow "QCL" sampleFactCsvRow, mapFactRow "QCL" sampleFactCsvRow] }

/-- A concrete archive whose inner file list has no main fact file. -/
def archNoMain : Archive :=
  ⟨"XX_E_All_Data_(Normalized).zip", [], [], [], [], [], []⟩

/-- A concrete archive with all five inner files, an exception injected at
the second item row and at the first element and flag rows. -/
def archDims : Archive :=
  ⟨"QCL_E_All_Data_(Normalized).zip",
   ["QCL_E_All_Data_(Normalized).csv", "QCL_E_AreaCodes.csv", "QCL_E_ItemCodes.csv",
    "QCL_E_Elements.csv", "QCL_E_Flags.csv"],
   [RowEvent.ok ⟨2, "004", "Afghanistan"⟩],
   [RowEvent.ok ⟨15, "0111", "Wheat"⟩, RowEvent.err],
   [RowEvent.err],
   [RowEvent.err],
   []⟩

/-- A run whose registry load raises. -/
def runInputErr : RunInput := ⟨Except.error "boom", []⟩

/-- A run with an empty registry and one discovered archive. -/
def runInputOk : RunInput := ⟨Except.ok [], [archFacts]⟩

/-! ### Helper lemmas -/

/-- The empty pattern occurs in every character list. -/
theorem charListIn_nil (l : List Char) : charListIn [] l = true := by
  cases l <;> simp [charListIn, List.isPrefixOf]

/-- Python's `"" in s` is true for every string `s`. -/
theorem pyIn_empty_left (s : String) : pyIn "" s = true := by
  simpa [pyIn] using charListIn_nil s.toList

/-- A row loop containing an exception aborts with that exception. -/
theorem runDimEvents_eq_none_of_err {ρ κ : Type} [BEq κ] (key : ρ → κ)
    (events : List (RowEvent ρ)) (h : RowEvent.err ∈ events) :
    ∀ table : List ρ, runDimEvents key table events = none := by
  induction events with
  | nil => cases h
  | cons e rest ih =>
    intro table
    cases e with
    | err => rfl
    | ok r =>
      have hr : RowEvent.err ∈ rest := by
        rcases List.mem_cons.mp h with h' | h'
        · exact absurd h' (by simp)
        · exact h'
      exact ih hr _

/-- A dimension block whose row loop raises rolls the table back to the
state it had when the block began. -/
theorem dimBlock_rollback {ρ κ : Type} [BEq κ] (key : ρ → κ)
    (table : List ρ) (events : List (RowEvent ρ)) (h : RowEvent.err ∈ events) :
    dimBlock key table events = table := by
  simp [dimBlock, runDimEvents_eq_none_of_err key events h table]

/-- Mapping with `mapEvent` preserves the exception marker. -/
theorem err_mem_map_mapEvent {ρ ρ' : Type} (f : ρ → ρ')
    (events : List (RowEvent ρ)) (h : RowEvent.err ∈ events) :
    RowEvent.err ∈ events.map (mapEvent f) := by
  exact List.mem_map.mpr ⟨RowEvent.err, h, rfl⟩

/-- The chunking worker ignores the exact fuel as long as it is at least
the length of the input. -/
theorem chunksOfFuel_congr {α : Type} (n : Nat) :
    ∀ (fuel₁ : Nat) (l : List α) (fuel₂ : Nat), l.length ≤ fuel₁ → l.length ≤ fuel₂ →
      chunksOfFuel n fuel₁ l = chunksOfFuel n fuel₂ l := by
  intro fuel₁
  induction fuel₁ with
  | zero =>
    intro l fuel₂ h₁ _
    have : l = [] := List.eq_nil_of_length_eq_zero (Nat.le_zero.mp h₁)
    subst this
    cases fuel₂ <;> rfl
  | succ f ih =>
    intro l fuel₂ h₁ h₂
    cases l with
    | nil => cases fuel₂ <;> rfl
    | cons a t =>
      cases fuel₂ with
      | zero => exact absurd h₂ (by simp)
      | succ f₂ =>
        show (a :: t.take (n - 1)) :: chunksOfFuel n f (t.drop (n - 1))
          = (a :: t.take (n - 1)) :: chunksOfFuel n f₂ (t.drop (n - 1))
        have hlen : (t.drop (n - 1)).length ≤ t.length := by
          simp [List.length_drop]
        have ht₁ : t.length ≤ f := Nat.le_of_succ_le_succ (by simpa using h₁)
        have ht₂ : t.length ≤ f₂ := Nat.le_of_succ_le_succ (by simpa using h₂)
        rw [ih _ f₂ (Nat.le_trans hlen ht₁) (Nat.le_trans hlen ht₂)]

/-- Unfolding equation of `chunksOf` on a non-empty list. -/
theorem chunksOf_cons {α : Type} (n : Nat) (a : α) (t : List α) :
    chunksOf n (a :: t) = (a :: t.take (n - 1)) :: chunksOf n (t.drop (n - 1)) := by
  show chunksOfFuel n (t.length + 1) (a :: t) = _
  show (a :: t.take (n - 1)) :: chunksOfFuel n t.length (t.drop (n - 1)) = _
  rw [chunksOfFuel_congr n t.length (t.drop (n - 1)) (t.drop (n - 1)).length
    (by simp [List.length_drop]) (Nat.le_refl _)]
  rfl

/-- For a positive batch size, the head batch is the first `n` elements. -/
theorem chunksOf_cons_of_pos {α : Type} (n : Nat) (hn : 0 < n) (a : α) (t : List α) :
    chunksOf n (a :: t) = (a :: t).take n :: chunksOf n ((a :: t).drop n) := by
  obtain ⟨m, rfl⟩ : ∃ m, n = m + 1 := ⟨n - 1, by omega⟩
  simpa using chunksOf_cons (m + 1) a t

/-- A non-empty list no longer than the batch size is a single batch. -/
theorem chunksOf_of_length_le {α : Type} (n : Nat) (hn : 0 < n) (l : List α)
    (hne : l ≠ []) (hlen : l.length ≤ n) : chunksOf n l = [l] := by
  obtain ⟨a, t, rfl⟩ := List.exists_cons_of_ne_nil hne
  rw [chunksOf_cons_of_pos n hn a t]
  rw [List.take_of_length_le hlen, List.drop_eq_nil_of_le hlen]
  rfl

/-- Concatenating the batches restores the original row list. -/
theorem chunksOf_flatten {α : Type} (n : Nat) :
    ∀ l : List α, (chunksOf n l).flatten = l := by
  have key : ∀ (len : Nat) (l : List α), l.length ≤ len → (chunksOf n l).flatten = l := by
    intro len
    induction len with
    | zero =>
      intro l h
      have : l = [] := List.eq_nil_of_length_eq_zero (Nat.le_zero.mp h)
      subst this; rfl
    | succ m ih =>
      intro l h
      cases l with
      | nil => rfl
      | cons a t =>
        rw [chunksOf_cons]
        have hle : (t.drop (n - 1)).length ≤ m := by
          simp only [List.length_drop]
          have : t.length ≤ m := by simpa using Nat.le_of_succ_le_succ h
          omega
        simp only [List.flatten_cons, ih _ hle]
        simp [List.take_append_drop]
  intro l
  exact key l.length l (Nat.le_refl _)

/-- Folding `++` over batches appends their concatenation. -/
theorem foldl_append_eq {α : Type} :
    ∀ (bs : List (List α)) (t : List α),
      bs.foldl (fun acc b => acc ++ b) t = t ++ bs.flatten := by
  intro bs
  induction bs with
  | nil => simp
  | cons b rest ih => intro t; simp [ih, List.append_assoc]

/-- The chunked fact loader appends exactly the cleaned rows, in order. -/
theorem loadFacts_eq (dataset_code : String) (rows : List FactCsvRow)
    (table : List FactRow) :
    loadFacts dataset_code rows table = table ++ rows.map (mapFactRow dataset_code) := by
  unfold loadFacts factBatches
  rw [foldl_append_eq]
  rw [← List.map_flatten, chunksOf_flatten]

/-- Dimension blocks do not touch the fact table. -/
theorem faostat_data_after_dims (db : DBState) (code : String)
    (a : List (RowEvent AreaRow)) (i : List (RowEvent ItemCsvRow))
    (e : List (RowEvent ElementCsvRow)) (f : List (RowEvent FlagRow)) :
    (loadAreasBlock db a).faostat_data = db.faostat_data ∧
    (loadItemsBlock code db i).faostat_data = db.faostat_data ∧
    (loadElementsBlock code db e).faostat_data = db.faostat_data ∧
    (loadFlagsBlock db f).faostat_data = db.faostat_data := by
  exact ⟨rfl, rfl, rfl, rfl⟩

/-- Whatever `process_zip_file` returns through `Except.ok`, its fact
table is the input fact table plus one cleaned copy of the archive's
fact rows. -/
theorem process_zip_file_ok_facts (arch : Archive) (code : String)
    (db db' : DBState) (h : process_zip_file arch (some code) db = Except.ok db') :
    db'.faostat_data = db.faostat_data ++ arch.factRows.map (mapFactRow code) := by
  unfold process_zip_file at h
  by_cases hmain : (findFiles "All_Data_(Normalized).csv" arch.fileList).isEmpty
  · rw [if_pos hmain] at h; cases h
  · rw [if_neg hmain] at h
    simp only at h
    set db1 := if (findFiles "AreaCodes.csv" arch.fileList).isEmpty then db
      else loadAreasBlock db arch.areaRows with hdb1
    set db2 := if (findFiles "ItemCodes.csv" arch.fileList).isEmpty then db1
      else loadItemsBlock code db1 arch.itemRows with hdb2
    set db3 := if (findFiles "Elements.csv" arch.fileList).isEmpty then db2
      else loadElementsBlock code db2 arch.elementRows with hdb3
    set db4 := if (findFiles "Flags.csv" arch.fileList).isEmpty then db3
      else loadFlagsBlock db3 arch.flagRows with hdb4
    have hfd1 : db1.faostat_data = db.faostat_data := by
      rw [hdb1]; split <;> rfl
    have hfd2 : db2.faostat_data = db1.faostat_data := by
      rw [hdb2]; split <;> rfl
    have hfd3 : db3.faostat_data = db2.faostat_data := by
      rw [hdb3]; split <;> rfl
    have hfd4 : db4.faostat_data = db3.faostat_data := by
      rw [hdb4]; split <;> rfl
    have hdb' : db' = { db4 with faostat_data := loadFacts code arch.factRows db4.faostat_data } :=
      (Except.ok.injEq _ _).mp h.symm
    rw [hdb']
    show loadFacts code arch.factRows db4.faostat_data = _
    rw [loadFacts_eq, hfd4, hfd3, hfd2, hfd1]

/-- The archive loop records one attempt per archive, in discovery
order, whether the archive succeeds or fails. -/
theorem mainLoop_attempts (datasets : List DatasetDescriptor) :
    ∀ (archives : List Archive) (st : RunState),
      (mainLoop datasets st archives).attempts
        = st.attempts ++ archives.map Archive.name := by
  intro archives
  induction archives with
  | nil => intro st; simp [mainLoop]
  | cons arch rest ih =>
    intro st
    show (mainLoop datasets (processOneArchive datasets st arch) rest).attempts = _
    rw [ih]
    have : (processOneArchive datasets st arch).attempts = st.attempts ++ [arch.name] := by
      simp only [processOneArchive]
      split <;> rfl
    rw [this]
    simp

/-- A conflicting insert (key already present) leaves the table unchanged. -/
theorem insertOnConflictDoNothing_of_mem {ρ κ : Type} [BEq κ] (key : ρ → κ)
    (table : List ρ) (r : ρ) (h : table.any (fun x => key x == key r) = true) :
    insertOnConflictDoNothing key table r = table := by
  simp [insertOnConflictDoNothing, h]

/-! ### Claim theorems -/

/-- Claim C1: for every dimension row (area, item, element, or flag) whose
natural key already exists in the corresponding dimension table, upserting
that row leaves the stored table — hence every name/description field of
the existing row — unchanged: re-ingestion of dimension data never
overwrites anything. -/
theorem claim_C1 :
    (∀ (areas : List AreaRow) (r : AreaRow),
      areas.any (fun x => x.area_code == r.area_code) = true →
      insertOnConflictDoNothing AreaRow.area_code areas r = areas) ∧
    (∀ (items : List ItemRow) (r : ItemRow),
      items.any (fun x => x.item_code == r.item_code) = true →
      insertOnConflictDoNothing ItemRow.item_code items r = items) ∧
    (∀ (elements : List ElementRow) (r : ElementRow),
      elements.any (fun x => x.element_code == r.element_code) = true →
      insertOnConflictDoNothing ElementRow.element_code elements r = elements) ∧
    (∀ (flags : List FlagRow) (r : FlagRow),
      flags.any (fun x => x.flag_code == r.flag_code) = true →
      insertOnConflictDoNothing FlagRow.flag_code flags r = flags) :=
  ⟨fun t r h => insertOnConflictDoNothing_of_mem _ t r h,
   fun t r h => insertOnConflictDoNothing_of_mem _ t r h,
   fun t r h => insertOnConflictDoNothing_of_mem _ t r h,
   fun t r h => insertOnConflictDoNothing_of_mem _ t r h⟩

/-- Witness for C1 on concrete rows of each dimension table: the second
write with the same key changes nothing, its differing name/description
fields are discarded. -/
theorem claim_C1_witness :
    insertOnConflictDoNothing AreaRow.area_code
      [⟨2, "004", "Afghanistan"⟩] ⟨2, "999", "Renamed"⟩ = [⟨2, "004", "Afghanistan"⟩] ∧
    insertOnConflictDoNothing ItemRow.item_code
      [⟨15, "0111", "Wheat", "QCL"⟩] ⟨15, "0112", "Other", "QV"⟩
        = [⟨15, "0111", "Wheat", "QCL"⟩] ∧
    insertOnConflictDoNothing ElementRow.element_code
      [⟨5312, "Area harvested", "QCL"⟩] ⟨5312, "Different", "QV"⟩
        = [⟨5312, "Area harvested", "QCL"⟩] ∧
    insertOnConflictDoNothing FlagRow.flag_code
      [⟨"A", "Official figure"⟩] ⟨"A", "Overwritten description"⟩
        = [⟨"A", "Official figure"⟩] :=
  ⟨claim_C1.1 _ _ (by decide), claim_C1.2.1 _ _ (by decide),
   claim_C1.2.2.1 _ _ (by decide), claim_C1.2.2.2 _ _ (by decide)⟩

/-- Claim C7: a metadata document with one descriptor whose file location
is `"data/QCL.zip"` resolves the archive `"QCL_E_All_Data_(Normalized).zip"`
to that descriptor's code: the suffix is stripped and the stem `"QCL"`
matches the file location by containment, first match winning. -/
theorem claim_C7 (code : String) :
    get_dataset_code_from_filename "QCL_E_All_Data_(Normalized).zip"
      [{ datasetCode := code, fileLocation := some "data/QCL.zip" }] = code :=
  rfl

/-- Claim C8: an archive whose stripped stem matches no descriptor (neither
by containment nor by suffix) resolves to the first 10 characters of the
stripped stem. -/
theorem claim_C8 (zip_filename : String) (datasets : List DatasetDescriptor)
    (h : ∀ ds ∈ datasets, descriptorMatches (stripArchiveStem zip_filename) ds = false) :
    get_dataset_code_from_filename zip_filename datasets
      = (stripArchiveStem zip_filename).take 10 := by
  have hnone : datasets.find? (descriptorMatches (stripArchiveStem zip_filename)) = none := by
    rw [List.find?_eq_none]
    intro x hx
    simp [h x hx]
  simp only [get_dataset_code_from_filename, hnone]

/-- Witness for C8: `"ZZZZZZZZZZZZZZZZ_E_All_Data_(Normalized).zip"` with a
non-matching descriptor resolves to the first 10 characters of
`"ZZZZZZZZZZZZZZZZ"`. -/
theorem claim_C8_witness :
    get_dataset_code_from_filename "ZZZZZZZZZZZZZZZZ_E_All_Data_(Normalized).zip"
      [{ datasetCode := "QCL", fileLocation := some "data/QCL.zip" }] = "ZZZZZZZZZZ" :=
  claim_C8 _ _ (by decide)

/-- Claim C10: for an archive named exactly `"_E_All_Data_(Normalized).zip"`
the stripped stem is empty, the empty string is contained in every file
location, so against any non-empty metadata document the FIRST descriptor
wins and the first-10-characters fallback is never reached. -/
theorem claim_C10 (d : DatasetDescriptor) (ds : List DatasetDescriptor) :
    get_dataset_code_from_filename "_E_All_Data_(Normalized).zip" (d :: ds)
      = d.datasetCode := by
  have hstem : stripArchiveStem "_E_All_Data_(Normalized).zip" = "" := by decide
  have hmatch : descriptorMatches "" d = true := by
    simp [descriptorMatches, pyIn_empty_left]
  simp [get_dataset_code_from_filename, hstem, List.find?, hmatch]

/-- Claim C4: the fact loader stores `Value` as the result of the coercion
`pd.to_numeric(..., errors='coerce')` for every row it appends — an
`Option ℚ`, so a non-numeric token is stored as an absent value, never as
the literal string and never as an exception — and numeric tokens keep
their numeric value (`"N/A"` coerces to none, `"42"` and `"3.5"` to their
values). -/
theorem claim_C4 (dataset_code : String) (rows : List FactCsvRow) (table : List FactRow) :
    (loadFacts dataset_code rows table).map FactRow.value
      = table.map FactRow.value ++ rows.map (fun r => to_numeric_coerce r.value) ∧
    to_numeric_coerce "N/A" = none ∧
    to_numeric_coerce "42" = some 42 ∧
    to_numeric_coerce "3.5" = some ((7 : ℚ) / 2) := by
  refine ⟨?_, by decide, by decide, ?_⟩
  · rw [loadFacts_eq]
    simp [List.map_map, Function.comp, mapFactRow]
  · have h : to_numeric_coerce "3.5"
        = some ((digitsToNat ['3'] : ℚ) + (digitsToNat ['5'] : ℚ) / (10 : ℚ) ^ (1 : Nat)) := rfl
    have h3 : digitsToNat ['3'] = 3 := by decide
    have h5 : digitsToNat ['5'] = 5 := by decide
    rw [h, h3, h5]
    norm_num

/-- Unfolding equation of `chunksOf` for a positive batch size on any
non-empty list. -/
theorem chunksOf_eq_cons_of_ne_nil {α : Type} (n : Nat) (hn : 0 < n) (l : List α)
    (hne : l ≠ []) : chunksOf n l = l.take n :: chunksOf n (l.drop n) := by
  obtain ⟨a, t, rfl⟩ := List.exists_cons_of_ne_nil hne
  exact chunksOf_cons_of_pos n hn a t

/-- Claim C2: fact loading appends unconditionally and never removes or
deduplicates: each successful `process_zip_file` run appends one full
cleaned copy of the archive's fact rows after the existing table, so two
runs against the same archive leave exactly twice the observation rows one
run produces on top of the initial table. -/
theorem claim_C2 (arch : Archive) (code : String) (db db1 db2 : DBState)
    (h1 : process_zip_file arch (some code) db = Except.ok db1)
    (h2 : process_zip_file arch (some code) db1 = Except.ok db2) :
    db1.faostat_data = db.faostat_data ++ arch.factRows.map (mapFactRow code) ∧
    db2.faostat_data = db1.faostat_data ++ arch.factRows.map (mapFactRow code) ∧
    db2.faostat_data.length = db.faostat_data.length + 2 * arch.factRows.length := by
  have e1 := process_zip_file_ok_facts arch code db db1 h1
  have e2 := process_zip_file_ok_facts arch code db1 db2 h2
  refine ⟨e1, e2, ?_⟩
  rw [e2, e1]
  simp [List.length_append, List.length_map]
  omega

/-- Witness for C2: a two-row archive loaded twice into an empty database
leaves four observation rows. -/
theorem claim_C2_witness :
    dbFacts2.faostat_data.length
      = dbEmpty.faostat_data.length + 2 * archFacts.factRows.length :=
  (claim_C2 archFacts "QCL" dbEmpty dbFacts1 dbFacts2 rfl rfl).2.2

/-- Claim C9: the fact loader streams in fixed batches of
`chunk_size = 10000` rows with one append operation per batch, so a fact
CSV with 25,000 rows produces exactly 3 appends of 10,000, 10,000 and
5,000 rows. -/
theorem claim_C9 (code : String) (rows : List FactCsvRow) (h : rows.length = 25000) :
    chunk_size = 10000 ∧
    (factBatches code rows).length = 3 ∧
    (factBatches code rows).map List.length = [10000, 10000, 5000] := by
  have hn : 0 < chunk_size := by decide
  have hne : rows ≠ [] := by
    intro hq; rw [hq] at h; simp at h
  have hlen1 : (rows.drop chunk_size).length = 15000 := by
    simp [List.length_drop, h, chunk_size]
  have hne1 : rows.drop chunk_size ≠ [] := by
    intro hq; rw [hq] at hlen1; simp at hlen1
  have hlen2 : ((rows.drop chunk_size).drop chunk_size).length = 5000 := by
    simp [List.length_drop, h, chunk_size]
  have hne2 : (rows.drop chunk_size).drop chunk_size ≠ [] := by
    intro hq; rw [hq] at hlen2; simp at hlen2
  have hc : chunksOf chunk_size rows
      = [rows.take chunk_size, (rows.drop chunk_size).take chunk_size,
         (rows.drop chunk_size).drop chunk_size] := by
    rw [chunksOf_eq_cons_of_ne_nil chunk_size hn rows hne,
        chunksOf_eq_cons_of_ne_nil chunk_size hn _ hne1,
        chunksOf_of_length_le chunk_size hn _ hne2 (by rw [hlen2]; decide)]
  refine ⟨rfl, ?_, ?_⟩
  · simp [factBatches, hc]
  · unfold factBatches
    rw [hc]
    simp only [List.map_cons, List.map_nil, List.length_map, List.length_take,
      List.length_drop, h, chunk_size]
    decide

/-- Witness for C9 on a concrete 25,000-row list. -/
theorem claim_C9_witness :
    (factBatches "QCL" (List.replicate 25000 sampleFactCsvRow)).map List.length
      = [10000, 10000, 5000] :=
  (claim_C9 "QCL" (List.replicate 25000 sampleFactCsvRow)
    (List.length_replicate 25000 sampleFactCsvRow)).2.2

/-- Claim C3: an archive whose inner file list has no name containing
`'All_Data_(Normalized).csv'` makes `process_zip_file` raise before any
database work (zero fact rows); the orchestrator's per-archive handler
catches it, logs the error, leaves the database untouched, and the run
continues with the next archive. -/
theorem claim_C3 (arch : Archive) (c : Option String) (db : DBState)
    (datasets : List DatasetDescriptor) (st : RunState) (rest : List Archive)
    (h : (findFiles "All_Data_(Normalized).csv" arch.fileList).isEmpty = true) :
    process_zip_file arch c db = Except.error "list index out of range" ∧
    (processOneArchive datasets st arch).db = st.db ∧
    (processOneArchive datasets st arch).errorLogs
      = st.errorLogs ++ ["Error processing " ++ arch.name ++ ": " ++ "list index out of range"] ∧
    (mainLoop datasets st (arch :: rest)).attempts
      = st.attempts ++ arch.name :: rest.map Archive.name := by
  have hpz : ∀ (c' : Option String) (db' : DBState),
      process_zip_file arch c' db' = Except.error "list index out of range" := by
    intro c' db'
    unfold process_zip_file
    rw [if_pos h]
  refine ⟨hpz c db, ?_, ?_, ?_⟩
  · simp [processOneArchive, hpz]
  · simp [processOneArchive, hpz]
  · rw [mainLoop_attempts]
    simp

/-- Witness for C3: an archive with an empty inner file list yields an
error and no database change, and the loop still attempts the following
archive. -/
theorem claim_C3_witness :
    process_zip_file archNoMain (some "XX") dbEmpty
      = Except.error "list index out of range" ∧
    (processOneArchive [] ⟨dbEmpty, [], []⟩ archNoMain).db = dbEmpty ∧
    (mainLoop [] ⟨dbEmpty, [], []⟩ [archNoMain, archFacts]).attempts
      = ["XX_E_All_Data_(Normalized).zip", "QCL_E_All_Data_(Normalized).zip"] := by
  have h := claim_C3 archNoMain (some "XX") dbEmpty [] ⟨dbEmpty, [], []⟩ [archFacts] rfl
  exact ⟨h.1, h.2.1, h.2.2.2⟩

/-- Claim C5: inside one archive each dimension load is its own
commit/rollback unit: an exception while processing a dimension's rows
rolls back all of that dimension's not-yet-committed inserts (its table is
as it was when that dimension's load began), dimensions committed earlier
in the same archive keep their inserts, and processing continues through
the remaining dimension blocks and the fact load. -/
theorem claim_C5 (arch : Archive) (code : String) (db : DBState)
    (hmain : (findFiles "All_Data_(Normalized).csv" arch.fileList).isEmpty = false)
    (ha : (findFiles "AreaCodes.csv" arch.fileList).isEmpty = false)
    (hi : (findFiles "ItemCodes.csv" arch.fileList).isEmpty = false)
    (he : (findFiles "Elements.csv" arch.fileList).isEmpty = false)
    (hf : (findFiles "Flags.csv" arch.fileList).isEmpty = false) :
    process_zip_file arch (some code) db
      = Except.ok { dimPhase4 code db arch with
          faostat_data := loadFacts code arch.factRows (dimPhase4 code db arch).faostat_data } ∧
    (RowEvent.err ∈ arch.areaRows →
      (dimPhase1 db arch).areas = db.areas) ∧
    (RowEvent.err ∈ arch.itemRows →
      (dimPhase2 code db arch).items = (dimPhase1 db arch).items ∧
      (dimPhase2 code db arch).areas = (dimPhase1 db arch).areas) ∧
    (RowEvent.err ∈ arch.elementRows →
      (dimPhase3 code db arch).elements = (dimPhase2 code db arch).elements ∧
      (dimPhase3 code db arch).areas = (dimPhase2 code db arch).areas ∧
      (dimPhase3 code db arch).items = (dimPhase2 code db arch).items) ∧
    (RowEvent.err ∈ arch.flagRows →
      (dimPhase4 code db arch).flags = (dimPhase3 code db arch).flags ∧
      (dimPhase4 code db arch).areas = (dimPhase3 code db arch).areas ∧
      (dimPhase4 code db arch).items = (dimPhase3 code db arch).items ∧
      (dimPhase4 code db arch).elements = (dimPhase3 code db arch).elements) := by
  refine ⟨?_, ?_, ?_, ?_, ?_⟩
  · simp [process_zip_file, hmain, ha, hi, he, hf,
      dimPhase4, dimPhase3, dimPhase2, dimPhase1]
  · intro hmem
    simp [dimPhase1, loadAreasBlock, dimBlock_rollback _ _ _ hmem]
  · intro hmem
    refine ⟨?_, rfl⟩
    simp [dimPhase2, loadItemsBlock,
      dimBlock_rollback _ _ _ (err_mem_map_mapEvent _ _ hmem)]
  · intro hmem
    refine ⟨?_, rfl, rfl⟩
    simp [dimPhase3, loadElementsBlock,
      dimBlock_rollback _ _ _ (err_mem_map_mapEvent _ _ hmem)]
  · intro hmem
    refine ⟨?_, rfl, rfl, rfl⟩
    simp [dimPhase4, loadFlagsBlock, dimBlock_rollback _ _ _ hmem]

/-- Witness for C5 on `archDims`: the exception at the second item row
rolls the items table back to its pre-block state while the committed
area insert survives into the final database. -/
theorem claim_C5_witness :
    (dimPhase2 "QCL" dbEmpty archDims).items = (dimPhase1 dbEmpty archDims).items ∧
    (dimPhase2 "QCL" dbEmpty archDims).areas = (dimPhase1 dbEmpty archDims).areas := by
  exact (claim_C5 archDims "QCL" dbEmpty rfl rfl rfl rfl rfl).2.2.1 (by decide)

/-- Claim C6: the orchestrator's error-propagation policy — an exception
during registry loading ends the run before any archive is touched, while
a per-archive exception is logged at the orchestrator and the loop goes
on, every discovered archive being attempted exactly once in order with no
retry. -/
theorem claim_C6 (input : RunInput) (db0 : DBState) :
    (∀ e, input.registry = Except.error e →
      main input db0
        = { db := db0, errorLogs := ["Error loading dataset metadata: " ++ e],
            attempts := [] }) ∧
    (∀ datasets, input.registry = Except.ok datasets →
      (main input db0).attempts = input.archives.map Archive.name) ∧
    (∀ (datasets : List DatasetDescriptor) (st : RunState) (arch : Archive) (e : String),
      process_zip_file arch (some (get_dataset_code_from_filename arch.name datasets)) st.db
        = Except.error e →
      processOneArchive datasets st arch
        = { st with
            errorLogs := st.errorLogs ++ ["Error processing " ++ arch.name ++ ": " ++ e],
            attempts := st.attempts ++ [arch.name] }) := by
  refine ⟨?_, ?_, ?_⟩
  · intro e he
    simp [main, he]
  · intro datasets hds
    simp [main, hds, mainLoop_attempts]
  · intro datasets st arch e hpz
    simp [processOneArchive, hpz]

/-- Witness for C6: a failing registry load ends the run with no attempts;
a successful registry load attempts the one discovered archive; a failing
archive is logged and the loop state advances. -/
theorem claim_C6_witness :
    main runInputErr dbEmpty
      = { db := dbEmpty, errorLogs := ["Error loading dataset metadata: boom"],
          attempts := [] } ∧
    (main runInputOk dbEmpty).attempts = ["QCL_E_All_Data_(Normalized).zip"] ∧
    processOneArchive [] ⟨dbEmpty, [], []⟩ archNoMain
      = { db := dbEmpty,
          errorLogs := ["Error processing XX_E_All_Data_(Normalized).zip: list index out of range"],
          attempts := ["XX_E_All_Data_(Normalized).zip"] } := by
  refine ⟨(claim_C6 runInputErr dbEmpty).1 "boom" rfl, ?_, ?_⟩
  · exact (claim_C6 runInputOk dbEmpty).2.1 [] rfl
  · exact (claim_C6 runInputOk dbEmpty).2.2 [] ⟨dbEmpty, [], []⟩ archNoMain
      "list index out of range" rfl

end OpenAgLibrary
